import Mathlib

/-!
Verification of the sentence-transformer notebooks: the attention-masked
mean-pooling operation, the embedding and classification forward passes,
and the single training step.

Tensors are modelled over exact rationals (the numerics of `torch` float
tensors, idealised): a tensor carries its shape and an entry function;
entries at out-of-range indices are irrelevant junk, and all statements
quantify only over in-range indices, except where an equality holds for
every index and is stated as such.
-/

/-- A two-dimensional tensor of shape (dim0, dim1). -/
structure Tensor2 where
  dim0 : ℕ
  dim1 : ℕ
  entry : ℕ → ℕ → ℚ

/-- A three-dimensional tensor of shape (dim0, dim1, dim2). -/
structure Tensor3 where
  dim0 : ℕ
  dim1 : ℕ
  dim2 : ℕ
  entry : ℕ → ℕ → ℕ → ℚ

/-- The floor `1e-9` used in `torch.clamp(..., min=1e-9)`. -/
def epsFloor : ℚ := 1 / 1000000000

/-- Scalar `torch.clamp(x, min=c)`. -/
def clampMin (x c : ℚ) : ℚ := max x c

/-- Whether `attention_mask.unsqueeze(-1).expand(token_embeddings.size())`
succeeds: after `unsqueeze(-1)` the mask has shape (dim0, dim1, 1); `expand`
to (E.dim0, E.dim1, E.dim2) requires each dimension either to match or to be
1 (a size-1 source dimension is broadcast). The trailing (size-1) dimension
always expands. -/
def expandOk (E : Tensor3) (M : Tensor2) : Bool :=
  (M.dim0 == E.dim0 || M.dim0 == 1) && (M.dim1 == E.dim1 || M.dim1 == 1)

/-- The line `input_mask_expanded = attention_mask.unsqueeze(-1).expand(token_embeddings.size())`:
the mask broadcast to the shape of `E`. A size-1 mask dimension reads index 0. -/
def inputMaskExpanded (E : Tensor3) (M : Tensor2) : Tensor3 :=
  ⟨E.dim0, E.dim1, E.dim2, fun b t _ =>
    M.entry (if M.dim0 = 1 then 0 else b) (if M.dim1 = 1 then 0 else t)⟩

/-- The line `sum_embeddings = torch.sum(token_embeddings * input_mask_expanded, 1)`. -/
def sumEmbeddings (E : Tensor3) (M : Tensor2) : Tensor2 :=
  ⟨E.dim0, E.dim2, fun b h =>
    ∑ t in Finset.range E.dim1, E.entry b t h * (inputMaskExpanded E M).entry b t h⟩

/-- The line `sum_mask = torch.clamp(input_mask_expanded.sum(1), min=1e-9)`. -/
def sumMask (E : Tensor3) (M : Tensor2) : Tensor2 :=
  ⟨E.dim0, E.dim2, fun b h =>
    clampMin (∑ t in Finset.range E.dim1, (inputMaskExpanded E M).entry b t h) epsFloor⟩

/-- The error raised when the mask cannot be expanded to the embedding's shape. -/
inductive PoolError where
  | shapeMismatch
deriving DecidableEq

/-- The method `mean_pooling(token_embeddings, attention_mask)`, identical in both notebooks:

    input_mask_expanded = attention_mask.unsqueeze(-1).expand(token_embeddings.size())
    sum_embeddings = torch.sum(token_embeddings * input_mask_expanded, 1)
    sum_mask = torch.clamp(input_mask_expanded.sum(1), min=1e-9)
    return sum_embeddings / sum_mask

The `expand` call fails (a shape-mismatch error propagating to the caller)
exactly when `expandOk` is false; otherwise the result is elementwise
`sum_embeddings / sum_mask` of shape (E.dim0, E.dim2). -/
def mean_pooling (E : Tensor3) (M : Tensor2) : Except PoolError Tensor2 :=
  if expandOk E M then
    .ok ⟨E.dim0, E.dim2, fun b h => (sumEmbeddings E M).entry b h / (sumMask E M).entry b h⟩
  else
    .error .shapeMismatch

/-- A mask is binary on its in-range entries. -/
def IsBinaryMask (M : Tensor2) : Prop :=
  ∀ b < M.dim0, ∀ t < M.dim1, M.entry b t = 0 ∨ M.entry b t = 1

/-- The output of `self.tokenizer(sentences, padding=True, truncation=True,
return_tensors="pt")`: token ids and the batch-aligned attention mask. -/
structure TokenizedBatch where
  input_ids : Tensor2
  attention_mask : Tensor2

/-- The external tokenizer collaborator, an opaque fixed function from
sentence lists to tokenized batches (its text-to-id mapping is out of scope). -/
structure Tokenizer where
  run : List String → TokenizedBatch

/-- The external pre-trained encoder collaborator: given a tokenized batch,
returns `outputs.last_hidden_state`, the per-token hidden states. Its weights
are fixed after loading, so it is a fixed function. -/
structure Encoder where
  run : TokenizedBatch → Tensor3

/-- The layer `nn.Linear` with weight (out_features, in_features) and bias
(out_features): `y = x @ weight.T + bias`, so
`y[b, k] = Σ_h x[b, h] * weight[k, h] + bias[k]`, of shape
(x.dim0, weight.dim0). -/
def linearForward (weight : Tensor2) (bias : ℕ → ℚ) (x : Tensor2) : Tensor2 :=
  ⟨x.dim0, weight.dim0, fun b k =>
    (∑ h in Finset.range weight.dim1, x.entry b h * weight.entry k h) + bias k⟩

/-- The `SentenceTransformer` model of the first notebook: a pre-trained
encoder and its tokenizer. -/
structure SentenceTransformer where
  encoder : Encoder
  tokenizer : Tokenizer

/-- The method `SentenceTransformer.forward(sentences)`:

    inputs = self.tokenizer(sentences, padding=True, truncation=True, return_tensors="pt")
    outputs = self.encoder(**inputs)
    sentence_embeddings = self.mean_pooling(outputs.last_hidden_state, inputs["attention_mask"])
    return sentence_embeddings

An error raised inside `mean_pooling` propagates to the caller. -/
def SentenceTransformer.forward (m : SentenceTransformer) (sentences : List String) :
    Except PoolError Tensor2 :=
  let inputs := m.tokenizer.run sentences
  let outputs := m.encoder.run inputs
  mean_pooling outputs inputs.attention_mask

/-- A call to `SentenceTransformer.forward` seen as a state transformer on the
model: the method reads `self` and performs no in-place mutation, so the
post-call model state is returned alongside the result. -/
def SentenceTransformer.forwardCall (m : SentenceTransformer) (sentences : List String) :
    Except PoolError Tensor2 × SentenceTransformer :=
  (m.forward sentences, m)

/-- The `SentenceClassificationTransformer` model of the second notebook:
encoder, tokenizer, and the `nn.Linear(hidden_size, num_classes)` head
`self.classifier` (the unused `self.pooling = nn.AdaptiveAvgPool1d(1)` layer
carries no state that the forward pass reads). -/
structure SentenceClassificationTransformer where
  encoder : Encoder
  tokenizer : Tokenizer
  classifier_weight : Tensor2
  classifier_bias : ℕ → ℚ

/-- The method `SentenceClassificationTransformer.forward(sentences)`:

    inputs = self.tokenizer(sentences, padding=True, truncation=True, return_tensors="pt")
    outputs = self.encoder(**inputs)
    pooled_output = self.mean_pooling(outputs.last_hidden_state, inputs["attention_mask"])
    class_logits = self.classifier(pooled_output)
    return class_logits

An error raised inside `mean_pooling` propagates (nothing after it runs). -/
def SentenceClassificationTransformer.forward (m : SentenceClassificationTransformer)
    (sentences : List String) : Except PoolError Tensor2 :=
  let inputs := m.tokenizer.run sentences
  let outputs := m.encoder.run inputs
  (mean_pooling outputs inputs.attention_mask).map
    (fun pooled_output => linearForward m.classifier_weight m.classifier_bias pooled_output)

/-- The embedding-only part of a classification model: the first notebook's
model built from the same encoder and tokenizer. -/
def SentenceClassificationTransformer.embeddingModel
    (m : SentenceClassificationTransformer) : SentenceTransformer :=
  ⟨m.encoder, m.tokenizer⟩

/-- A call to `mean_pooling` seen together with the buffers it was given:
every torch operation in its body (`expand`, `*`, `torch.sum`, `torch.clamp`,
`/`) allocates a fresh tensor, so the arguments come back unchanged. -/
def mean_pooling_call (E : Tensor3) (M : Tensor2) :
    Except PoolError Tensor2 × Tensor3 × Tensor2 :=
  (mean_pooling E M, E, M)

/-- Reindex the hidden dimension of a token embedding batch by `σ`:
entry (b, t, h) becomes entry (b, t, σ h). -/
def permuteHidden (E : Tensor3) (σ : ℕ → ℕ) : Tensor3 :=
  ⟨E.dim0, E.dim1, E.dim2, fun b t h => E.entry b t (σ h)⟩

/-- Reindex the second dimension of a matrix by `σ`. -/
def permuteCols (S : Tensor2) (σ : ℕ → ℕ) : Tensor2 :=
  ⟨S.dim0, S.dim1, fun b h => S.entry b (σ h)⟩

/-- The primitive operations of the notebook's training step. -/
inductive TrainOp where
  | forwardPass
  | lossComputation
  | zeroGrad
  | backward
  | optimizerStep
deriving DecidableEq

/-- The training step of the second notebook, line by line:

    class_logits = sentence_classification_model(sample_sentences)
    classification_loss = classification_loss_fn(class_logits, sentence_labels)
    optimizer.zero_grad()
    classification_loss.backward()
    optimizer.step()

recorded as the sequence of primitive operations it performs. -/
def trainingStepOps : List TrainOp :=
  [.forwardPass, .lossComputation, .zeroGrad, .backward, .optimizerStep]

lemma inputMaskExpanded_entry (E : Tensor3) (M : Tensor2)
    (h0 : M.dim0 = E.dim0) (h1 : M.dim1 = E.dim1) (b t h : ℕ)
    (hb : b < E.dim0) (ht : t < E.dim1) :
    (inputMaskExpanded E M).entry b t h = M.entry b t := by
  show M.entry (if M.dim0 = 1 then 0 else b) (if M.dim1 = 1 then 0 else t) = M.entry b t
  have e0 : (if M.dim0 = 1 then 0 else b) = b := by split <;> omega
  have e1 : (if M.dim1 = 1 then 0 else t) = t := by split <;> omega
  rw [e0, e1]

lemma expandOk_of_match (E : Tensor3) (M : Tensor2)
    (h0 : M.dim0 = E.dim0) (h1 : M.dim1 = E.dim1) : expandOk E M = true := by
  simp [expandOk, h0, h1]

lemma mean_pooling_of_match (E : Tensor3) (M : Tensor2)
    (h0 : M.dim0 = E.dim0) (h1 : M.dim1 = E.dim1) :
    mean_pooling E M =
      .ok ⟨E.dim0, E.dim2, fun b h =>
        (sumEmbeddings E M).entry b h / (sumMask E M).entry b h⟩ := by
  rw [mean_pooling, if_pos (expandOk_of_match E M h0 h1)]

lemma sumEmbeddings_entry_of_match (E : Tensor3) (M : Tensor2)
    (h0 : M.dim0 = E.dim0) (h1 : M.dim1 = E.dim1) (b h : ℕ) (hb : b < E.dim0) :
    (sumEmbeddings E M).entry b h =
      ∑ t in Finset.range E.dim1, E.entry b t h * M.entry b t := by
  show (∑ t in Finset.range E.dim1, E.entry b t h * (inputMaskExpanded E M).entry b t h) = _
  refine Finset.sum_congr rfl (fun t ht => ?_)
  rw [inputMaskExpanded_entry E M h0 h1 b t h hb (Finset.mem_range.mp ht)]

lemma sumMask_entry_of_match (E : Tensor3) (M : Tensor2)
    (h0 : M.dim0 = E.dim0) (h1 : M.dim1 = E.dim1) (b h : ℕ) (hb : b < E.dim0) :
    (sumMask E M).entry b h =
      max (∑ t in Finset.range E.dim1, M.entry b t) epsFloor := by
  show clampMin (∑ t in Finset.range E.dim1, (inputMaskExpanded E M).entry b t h) epsFloor = _
  rw [clampMin]
  congr 1
  refine Finset.sum_congr rfl (fun t ht => ?_)
  rw [inputMaskExpanded_entry E M h0 h1 b t h hb (Finset.mem_range.mp ht)]

/-- C1: for matching shapes (B, T, H) and (B, T) and a binary mask,
`mean_pooling` succeeds and returns S with
`S[b, h] = (Σ_t E[b,t,h] · M[b,t]) / max(Σ_t M[b,t], 1e-9)`; whenever row b
of the mask contains a 1, the floor is inactive and `S[b, ·]` is exactly the
weighted average `(Σ_t E[b,t,h] · M[b,t]) / (Σ_t M[b,t])` of the unmasked
token vectors. -/
theorem mean_pooling_formula (E : Tensor3) (M : Tensor2)
    (h0 : M.dim0 = E.dim0) (h1 : M.dim1 = E.dim1) (hbin : IsBinaryMask M) :
    ∃ S : Tensor2, mean_pooling E M = .ok S ∧
      (∀ b < E.dim0, ∀ h < E.dim2,
        S.entry b h =
          (∑ t in Finset.range E.dim1, E.entry b t h * M.entry b t) /
            max (∑ t in Finset.range E.dim1, M.entry b t) epsFloor) ∧
      (∀ b < E.dim0, (∃ t < M.dim1, M.entry b t = 1) → ∀ h < E.dim2,
        S.entry b h =
          (∑ t in Finset.range E.dim1, E.entry b t h * M.entry b t) /
            (∑ t in Finset.range E.dim1, M.entry b t)) := by
  refine ⟨_, mean_pooling_of_match E M h0 h1, ?_, ?_⟩
  · intro b hb h hh
    show (sumEmbeddings E M).entry b h / (sumMask E M).entry b h = _
    rw [sumEmbeddings_entry_of_match E M h0 h1 b h hb,
      sumMask_entry_of_match E M h0 h1 b h hb]
  · intro b hb ht0 h hh
    obtain ⟨t0, ht0lt, ht0one⟩ := ht0
    have hone : (1 : ℚ) ≤ ∑ t in Finset.range E.dim1, M.entry b t := by
      have hb' : b < M.dim0 := by omega
      have hle := Finset.single_le_sum (f := fun t => M.entry b t)
        (fun t ht => by
          rcases hbin b hb' t (by have := Finset.mem_range.mp ht; omega) with hz | ho
          · simp [hz]
          · simp [ho])
        (Finset.mem_range.mpr (by omega : t0 < E.dim1))
      simpa [ht0one] using hle
    have hmax : max (∑ t in Finset.range E.dim1, M.entry b t) epsFloor =
        ∑ t in Finset.range E.dim1, M.entry b t := by
      refine max_eq_left ?_
      calc epsFloor ≤ 1 := by norm_num [epsFloor]
        _ ≤ _ := hone
    show (sumEmbeddings E M).entry b h / (sumMask E M).entry b h = _
    rw [sumEmbeddings_entry_of_match E M h0 h1 b h hb,
      sumMask_entry_of_match E M h0 h1 b h hb, hmax]

/-- C4: for matching input shapes (B, T, H) and (B, T) with B, T, H ≥ 1,
the pooling output exists and has shape exactly (B, H). -/
theorem mean_pooling_shape (E : Tensor3) (M : Tensor2)
    (hB : 1 ≤ E.dim0) (hT : 1 ≤ E.dim1) (hH : 1 ≤ E.dim2)
    (h0 : M.dim0 = E.dim0) (h1 : M.dim1 = E.dim1) :
    ∃ S : Tensor2, mean_pooling E M = .ok S ∧ S.dim0 = E.dim0 ∧ S.dim1 = E.dim2 :=
  ⟨_, mean_pooling_of_match E M h0 h1, rfl, rfl⟩

lemma sumMask_entry_of_zero_row (E : Tensor3) (M : Tensor2)
    (h0 : M.dim0 = E.dim0) (h1 : M.dim1 = E.dim1) (b : ℕ) (hb : b < E.dim0)
    (hz : ∀ t < M.dim1, M.entry b t = 0) (h : ℕ) :
    (sumMask E M).entry b h = epsFloor := by
  rw [sumMask_entry_of_match E M h0 h1 b h hb]
  have hs : (∑ t in Finset.range E.dim1, M.entry b t) = 0 := by
    refine Finset.sum_eq_zero (fun t ht => ?_)
    exact hz t (by have := Finset.mem_range.mp ht; omega)
  rw [hs]
  refine max_eq_right ?_
  norm_num [epsFloor]

/-- C3: for matching shapes and a mask whose row b is entirely zero,
`mean_pooling` does not fail, and on row b the clamped denominator is the
strictly positive floor 1e-9, so every entry of the output row is an ordinary
finite value (in this exact-arithmetic model no division by zero occurs, the
NaN/Inf-producing case of the float code). -/
theorem mean_pooling_zero_row_safe (E : Tensor3) (M : Tensor2)
    (h0 : M.dim0 = E.dim0) (h1 : M.dim1 = E.dim1) (b : ℕ) (hb : b < E.dim0)
    (hz : ∀ t < M.dim1, M.entry b t = 0) :
    ∃ S : Tensor2, mean_pooling E M = .ok S ∧
      ∀ h < E.dim2, (sumMask E M).entry b h = epsFloor ∧
        0 < (sumMask E M).entry b h ∧
        S.entry b h = (sumEmbeddings E M).entry b h / (sumMask E M).entry b h := by
  refine ⟨_, mean_pooling_of_match E M h0 h1, fun h hh => ?_⟩
  have he := sumMask_entry_of_zero_row E M h0 h1 b hb hz h
  exact ⟨he, by rw [he]; norm_num [epsFloor], rfl⟩

/-- C10: for matching shapes and a mask whose row b is entirely zero, the
pooled row is exactly the zero vector: the numerator vanishes and the
denominator is the positive floor 1e-9, so each quotient is exactly 0. -/
theorem mean_pooling_zero_row_is_zero (E : Tensor3) (M : Tensor2)
    (h0 : M.dim0 = E.dim0) (h1 : M.dim1 = E.dim1) (b : ℕ) (hb : b < E.dim0)
    (hz : ∀ t < M.dim1, M.entry b t = 0) :
    ∃ S : Tensor2, mean_pooling E M = .ok S ∧ ∀ h < E.dim2, S.entry b h = 0 := by
  refine ⟨_, mean_pooling_of_match E M h0 h1, fun h hh => ?_⟩
  show (sumEmbeddings E M).entry b h / (sumMask E M).entry b h = 0
  have hnum : (sumEmbeddings E M).entry b h = 0 := by
    rw [sumEmbeddings_entry_of_match E M h0 h1 b h hb]
    refine Finset.sum_eq_zero (fun t ht => ?_)
    rw [hz t (by have := Finset.mem_range.mp ht; omega), mul_zero]
  rw [hnum, zero_div]

/-- A 2-sentence-shaped embedding batch, (2, 1, 1), all entries 1. -/
def bcastEmbeddings : Tensor3 := ⟨2, 1, 1, fun _ _ _ => 1⟩

/-- A single-row mask of shape (1, 1): its batch dimension disagrees with
`bcastEmbeddings`, but `expand` broadcasts the size-1 dimension. -/
def bcastMask : Tensor2 := ⟨1, 1, fun _ _ => 1⟩

/-- C2 counterexample: `bcastMask`'s dimensions (1, 1) do not equal
`bcastEmbeddings`'s leading dimensions (2, 1), yet `mean_pooling` accepts the
pair silently (PyTorch `expand` broadcasts a size-1 dimension), refuting the
claim that 100% of mismatched pairs are rejected. -/
theorem mean_pooling_broadcast_accepted :
    ¬ (bcastMask.dim0 = bcastEmbeddings.dim0 ∧ bcastMask.dim1 = bcastEmbeddings.dim1) ∧
      (mean_pooling bcastEmbeddings bcastMask).isOk = true := by
  constructor
  · intro hcontra
    simp [bcastMask, bcastEmbeddings] at hcontra
  · rfl

/-- C2 amended: `mean_pooling` fails with the shape-mismatch error exactly
when the mask cannot be broadcast to the embedding's shape, i.e. when some
leading dimension of M differs from E's and is not 1; a mismatched pair in
which every differing mask dimension equals 1 is accepted silently. -/
theorem mean_pooling_error_iff (E : Tensor3) (M : Tensor2) :
    mean_pooling E M = .error .shapeMismatch ↔
      ¬ ((M.dim0 = E.dim0 ∨ M.dim0 = 1) ∧ (M.dim1 = E.dim1 ∨ M.dim1 = 1)) := by
  have hiff : expandOk E M = true ↔
      ((M.dim0 = E.dim0 ∨ M.dim0 = 1) ∧ (M.dim1 = E.dim1 ∨ M.dim1 = 1)) := by
    simp [expandOk]
  by_cases hc : expandOk E M = true
  · rw [mean_pooling, if_pos hc]
    simp only [hiff] at hc
    simp [hc]
  · rw [mean_pooling, if_neg hc]
    simp only [← hiff]
    simp [hc]

/-- C8: `mean_pooling` is pure: the call returns its two input buffers
unchanged (every torch operation in the body allocates a fresh tensor) and
its result is a function of E and M alone; moreover the mask enters only by
broadcast across the hidden dimension, so reindexing the hidden dimension of
E by any map σ commutes with pooling. -/
theorem mean_pooling_pure_and_equivariant (E : Tensor3) (M : Tensor2) (σ : ℕ → ℕ) :
    (mean_pooling_call E M).2.1 = E ∧
    (mean_pooling_call E M).2.2 = M ∧
    (mean_pooling_call E M).1 = mean_pooling E M ∧
    mean_pooling (permuteHidden E σ) M =
      (mean_pooling E M).map (fun S => permuteCols S σ) := by
  refine ⟨rfl, rfl, rfl, ?_⟩
  have hconds : expandOk (permuteHidden E σ) M = expandOk E M := rfl
  by_cases hc : expandOk E M = true
  · rw [mean_pooling, mean_pooling, if_pos (hconds.trans hc), if_pos hc]
    rfl
  · rw [mean_pooling, mean_pooling, if_neg (by rw [hconds]; exact hc), if_neg hc]
    rfl

/-- C7: the embedding-only forward pass is deterministic and stateless: a
call leaves the model unchanged, and a second call on the resulting model
with the same sentences returns the identical embedding batch (the encoder
and tokenizer are fixed functions — weights are fixed after the initial
load — and `forward` performs no mutation). -/
theorem forward_deterministic (m : SentenceTransformer) (sentences : List String) :
    (m.forwardCall sentences).2 = m ∧
    ((m.forwardCall sentences).2.forwardCall sentences).1 =
      (m.forwardCall sentences).1 :=
  ⟨rfl, rfl⟩

/-- C5: the classification forward pass is exactly the embedding-only forward
pass followed by one linear projection `logits = S @ W.T + b`; when the
encoder output for the batch has leading dimension 2, the mask matches it,
and the head has `num_classes = 3` rows, the logits have shape (2, 3). -/
theorem classification_forward_linear_head (m : SentenceClassificationTransformer)
    (sentences : List String)
    (henc : (m.encoder.run (m.tokenizer.run sentences)).dim0 = 2)
    (hm0 : (m.tokenizer.run sentences).attention_mask.dim0 =
      (m.encoder.run (m.tokenizer.run sentences)).dim0)
    (hm1 : (m.tokenizer.run sentences).attention_mask.dim1 =
      (m.encoder.run (m.tokenizer.run sentences)).dim1)
    (hW : m.classifier_weight.dim0 = 3) :
    m.forward sentences =
      (m.embeddingModel.forward sentences).map
        (linearForward m.classifier_weight m.classifier_bias) ∧
    ∃ L : Tensor2, m.forward sentences = .ok L ∧ L.dim0 = 2 ∧ L.dim1 = 3 := by
  constructor
  · rfl
  · refine ⟨linearForward m.classifier_weight m.classifier_bias
      ⟨(m.encoder.run (m.tokenizer.run sentences)).dim0,
       (m.encoder.run (m.tokenizer.run sentences)).dim2, fun b h =>
        (sumEmbeddings (m.encoder.run (m.tokenizer.run sentences))
            (m.tokenizer.run sentences).attention_mask).entry b h /
          (sumMask (m.encoder.run (m.tokenizer.run sentences))
            (m.tokenizer.run sentences).attention_mask).entry b h⟩, ?_, henc, hW⟩
    show (mean_pooling (m.encoder.run (m.tokenizer.run sentences))
        (m.tokenizer.run sentences).attention_mask).map
        (fun pooled_output =>
          linearForward m.classifier_weight m.classifier_bias pooled_output) = _
    rw [mean_pooling_of_match _ _ hm0 hm1]
    rfl

/-- C6 counterexample: the training step does not perform its operations in
the claimed order (forward; loss; backward; optimizer update; then clear
gradients): `optimizer.zero_grad()` is the third operation, before
`backward()`, not the last one. -/
theorem trainingStepOps_ne_claimed_order :
    trainingStepOps ≠
      [TrainOp.forwardPass, TrainOp.lossComputation, TrainOp.backward,
       TrainOp.optimizerStep, TrainOp.zeroGrad] := by
  decide

/-- C6 amended: the training step performs, in order: the classification
forward pass; the cross-entropy loss; clearing of accumulated gradients
(`zero_grad`); the gradient computation (`backward`); one optimizer update
(`step`). In particular the clearing precedes the gradient computation and
the update inside the step — it does not follow the update — so the update
still consumes exactly the gradients of the current loss. -/
theorem trainingStepOps_order :
    trainingStepOps =
      [TrainOp.forwardPass, TrainOp.lossComputation, TrainOp.zeroGrad,
       TrainOp.backward, TrainOp.optimizerStep] ∧
    trainingStepOps.indexOf TrainOp.zeroGrad <
      trainingStepOps.indexOf TrainOp.backward ∧
    trainingStepOps.indexOf TrainOp.backward <
      trainingStepOps.indexOf TrainOp.optimizerStep ∧
    trainingStepOps.indexOf TrainOp.forwardPass <
      trainingStepOps.indexOf TrainOp.lossComputation := by
  refine ⟨rfl, ?_, ?_, ?_⟩ <;> decide

/-- A concrete (1, 2, 1) embedding batch: entries 1 and 2 along the sequence. -/
def wEmb : Tensor3 := ⟨1, 2, 1, fun _ t _ => (t : ℚ) + 1⟩

/-- A concrete (1, 2) binary mask selecting only the first token. -/
def wMask : Tensor2 := ⟨1, 2, fun _ t => if t = 0 then 1 else 0⟩

/-- A concrete (1, 2) mask whose single row is entirely zero. -/
def wMaskZero : Tensor2 := ⟨1, 2, fun _ _ => 0⟩

theorem mean_pooling_formula_witness :
    IsBinaryMask wMask ∧
    (∃ S : Tensor2, mean_pooling wEmb wMask = .ok S ∧
      (∀ b < wEmb.dim0, ∀ h < wEmb.dim2,
        S.entry b h =
          (∑ t in Finset.range wEmb.dim1, wEmb.entry b t h * wMask.entry b t) /
            max (∑ t in Finset.range wEmb.dim1, wMask.entry b t) epsFloor) ∧
      (∀ b < wEmb.dim0, (∃ t < wMask.dim1, wMask.entry b t = 1) → ∀ h < wEmb.dim2,
        S.entry b h =
          (∑ t in Finset.range wEmb.dim1, wEmb.entry b t h * wMask.entry b t) /
            (∑ t in Finset.range wEmb.dim1, wMask.entry b t))) :=
  ⟨by unfold IsBinaryMask; decide,
   mean_pooling_formula wEmb wMask rfl rfl (by unfold IsBinaryMask; decide)⟩

theorem mean_pooling_shape_witness :
    (1 ≤ wEmb.dim0 ∧ 1 ≤ wEmb.dim1 ∧ 1 ≤ wEmb.dim2) ∧
    (∃ S : Tensor2, mean_pooling wEmb wMask = .ok S ∧
      S.dim0 = wEmb.dim0 ∧ S.dim1 = wEmb.dim2) :=
  ⟨⟨by decide, by decide, by decide⟩,
   mean_pooling_shape wEmb wMask (by decide) (by decide) (by decide) rfl rfl⟩

theorem mean_pooling_zero_row_safe_witness :
    (0 < wEmb.dim0 ∧ ∀ t < wMaskZero.dim1, wMaskZero.entry 0 t = 0) ∧
    (∃ S : Tensor2, mean_pooling wEmb wMaskZero = .ok S ∧
      ∀ h < wEmb.dim2, (sumMask wEmb wMaskZero).entry 0 h = epsFloor ∧
        0 < (sumMask wEmb wMaskZero).entry 0 h ∧
        S.entry 0 h = (sumEmbeddings wEmb wMaskZero).entry 0 h /
          (sumMask wEmb wMaskZero).entry 0 h) :=
  ⟨⟨by decide, by decide⟩,
   mean_pooling_zero_row_safe wEmb wMaskZero rfl rfl 0 (by decide) (by decide)⟩

theorem mean_pooling_zero_row_is_zero_witness :
    (0 < wEmb.dim0 ∧ ∀ t < wMaskZero.dim1, wMaskZero.entry 0 t = 0) ∧
    (∃ S : Tensor2, mean_pooling wEmb wMaskZero = .ok S ∧
      ∀ h < wEmb.dim2, S.entry 0 h = 0) :=
  ⟨⟨by decide, by decide⟩,
   mean_pooling_zero_row_is_zero wEmb wMaskZero rfl rfl 0 (by decide) (by decide)⟩

/-- A concrete tokenized batch for two sentences: ids and mask of shape (2, 1). -/
def toyBatch : TokenizedBatch := ⟨⟨2, 1, fun _ _ => 0⟩, ⟨2, 1, fun _ _ => 1⟩⟩

/-- A concrete classification model with a stub encoder of hidden size 1 and a
3-class head, used to instantiate the forward-pass theorems. -/
def toyClassifier : SentenceClassificationTransformer :=
  ⟨⟨fun _ => ⟨2, 1, 1, fun _ _ _ => 0⟩⟩, ⟨fun _ => toyBatch⟩,
   ⟨3, 1, fun _ _ => 0⟩, fun _ => 0⟩

/-- The labels `sentence_labels = torch.tensor([0, 1])` of the training step. -/
def sentence_labels : ℕ → ℕ := fun i => if i = 0 then 0 else 1

/-- Softmax probability of class k for a logit row z over C classes. The
training-step model works over exact reals: `Real.exp`, `Real.log` and
`Real.sqrt` stand for the float routines, and every real value is finite. -/
noncomputable def softmaxProb (C : ℕ) (z : ℕ → ℝ) (k : ℕ) : ℝ :=
  Real.exp (z k) / ∑ j in Finset.range C, Real.exp (z j)

/-- The criterion `nn.CrossEntropyLoss()` with its default mean reduction on
logits z of shape (N, C) and integer labels y:
`L = (1/N) Σ_i (log Σ_j exp z[i,j] − z[i, y i])`. -/
noncomputable def crossEntropyLoss (N C : ℕ) (z : ℕ → ℕ → ℝ) (y : ℕ → ℕ) : ℝ :=
  (∑ i in Finset.range N,
    (Real.log (∑ j in Finset.range C, Real.exp (z i j)) - z i (y i))) / N

/-- The gradient `classification_loss.backward()` accumulates into the bias
of `self.classifier`: `∂L/∂b_k = (1/N) Σ_i (softmax(z_i)_k − [y_i = k])`. -/
noncomputable def gradBias (N C : ℕ) (z : ℕ → ℕ → ℝ) (y : ℕ → ℕ) (k : ℕ) : ℝ :=
  (∑ i in Finset.range N,
    (softmaxProb C (z i) k - if y i = k then 1 else 0)) / N

/-- The gradient accumulated into the weight of `self.classifier`:
`∂L/∂W_{k,h} = (1/N) Σ_i (softmax(z_i)_k − [y_i = k]) · S[i,h]` where S is the
pooled sentence embedding batch. -/
noncomputable def gradWeight (N C : ℕ) (z : ℕ → ℕ → ℝ) (y : ℕ → ℕ)
    (S : ℕ → ℕ → ℝ) (k h : ℕ) : ℝ :=
  (∑ i in Finset.range N,
    (softmaxProb C (z i) k - if y i = k then 1 else 0) * S i h) / N

/-- One parameter's update by the first `optimizer.step()` of
`optim.AdamW(..., lr=5e-5)`: with step count t = 1,
`m₁ = (1−β₁)g`, `v₁ = (1−β₂)g²`, bias-corrected `m̂ = m₁/(1−β₁)`,
`v̂ = v₁/(1−β₂)`, decoupled weight decay first, then
`θ' = (θ − lr·wd·θ) − lr·m̂/(√v̂ + eps)`. -/
noncomputable def adamwFirstStep (lr wd beta1 beta2 eps θ g : ℝ) : ℝ :=
  let m := (1 - beta1) * g
  let v := (1 - beta2) * g ^ 2
  let mhat := m / (1 - beta1)
  let vhat := v / (1 - beta2)
  (θ - lr * wd * θ) - lr * mhat / (Real.sqrt vhat + eps)

/-- The classifier bias component k after the notebook's single training step
with the torch AdamW defaults betas = (0.9, 0.999), eps = 1e-8,
weight_decay = 0.01 and the configured lr = 5e-5. -/
noncomputable def headBiasAfterStep (z : ℕ → ℕ → ℝ) (bias : ℕ → ℝ) (k : ℕ) : ℝ :=
  adamwFirstStep (5 / 100000) (1 / 100) (9 / 10) (999 / 1000) (1 / 100000000)
    (bias k) (gradBias 2 3 z sentence_labels k)

/-- The classifier weight entry (k, h) after the single training step, with
the same AdamW hyperparameters. -/
noncomputable def headWeightAfterStep (z : ℕ → ℕ → ℝ) (S : ℕ → ℕ → ℝ)
    (W : ℕ → ℕ → ℝ) (k h : ℕ) : ℝ :=
  adamwFirstStep (5 / 100000) (1 / 100) (9 / 10) (999 / 1000) (1 / 100000000)
    (W k h) (gradWeight 2 3 z sentence_labels S k h)

lemma softmaxProb_pos (C : ℕ) (hC : 0 < C) (z : ℕ → ℝ) (k : ℕ) :
    0 < softmaxProb C z k := by
  refine div_pos (Real.exp_pos _) ?_
  exact Finset.sum_pos (fun j _ => Real.exp_pos _)
    ⟨0, Finset.mem_range.mpr hC⟩

lemma crossEntropyLoss_nonneg (N C : ℕ) (z : ℕ → ℕ → ℝ) (y : ℕ → ℕ)
    (hy : ∀ i < N, y i < C) : 0 ≤ crossEntropyLoss N C z y := by
  unfold crossEntropyLoss
  refine div_nonneg (Finset.sum_nonneg (fun i hi => ?_)) (Nat.cast_nonneg N)
  have hyi : y i < C := hy i (Finset.mem_range.mp hi)
  have hle : Real.exp (z i (y i)) ≤ ∑ j in Finset.range C, Real.exp (z i j) := by
    have := Finset.single_le_sum (f := fun j => Real.exp (z i j))
      (fun j _ => (Real.exp_pos (z i j)).le) (Finset.mem_range.mpr hyi)
    simpa using this
  have hlog : z i (y i) ≤ Real.log (∑ j in Finset.range C, Real.exp (z i j)) := by
    calc z i (y i) = Real.log (Real.exp (z i (y i))) := (Real.log_exp _).symm
      _ ≤ _ := Real.log_le_log (Real.exp_pos _) hle
  linarith

lemma gradBias_two_pos (z : ℕ → ℕ → ℝ) :
    0 < gradBias 2 3 z sentence_labels 2 := by
  unfold gradBias sentence_labels
  rw [Finset.sum_range_succ, Finset.sum_range_succ, Finset.sum_range_zero]
  have h0 := softmaxProb_pos 3 (by norm_num) (z 0) 2
  have h1 := softmaxProb_pos 3 (by norm_num) (z 1) 2
  refine div_pos ?_ (by norm_num)
  norm_num
  linarith

lemma adamwFirstStep_lt (θ g : ℝ) (hθ : |θ| ≤ 1)
    (hg : 1 / 1000000000 ≤ g) :
    adamwFirstStep (5 / 100000) (1 / 100) (9 / 10) (999 / 1000) (1 / 100000000)
      θ g < θ := by
  have hg0 : (0 : ℝ) < g := lt_of_lt_of_le (by norm_num) hg
  unfold adamwFirstStep
  simp only
  have h1 : ((1 : ℝ) - 9 / 10) * g / (1 - 9 / 10) = g :=
    mul_div_cancel_left₀ g (by norm_num)
  have h2 : Real.sqrt (((1 : ℝ) - 999 / 1000) * g ^ 2 / (1 - 999 / 1000)) = g := by
    rw [mul_div_cancel_left₀ _ (show (1 : ℝ) - 999 / 1000 ≠ 0 by norm_num)]
    exact Real.sqrt_sq hg0.le
  rw [h1, h2]
  have hden : (0 : ℝ) < g + 1 / 100000000 := by linarith
  have hfrac : (1 : ℝ) / 11 ≤ g / (g + 1 / 100000000) := by
    rw [div_le_div_iff₀ (by norm_num) hden]
    linarith
  have hθ1 : -1 ≤ θ := (abs_le.mp hθ).1
  have hpos : 0 < (1 / 100 : ℝ) * θ + g / (g + 1 / 100000000) := by linarith
  have hassoc : (5 / 100000 : ℝ) * g / (g + 1 / 100000000) =
      5 / 100000 * (g / (g + 1 / 100000000)) := mul_div_assoc _ _ _
  rw [hassoc]
  nlinarith [hpos]

/-- C9: for any logits z produced by the forward pass on the two sample
sentences, any pooled embeddings S, and any head parameters, the
cross-entropy loss with labels [0, 1] is non-negative (and, over this
exact-real model, finite); the gradient accumulated into bias component 2 is
strictly positive (class 2 receives no label, yet its softmax mass is
positive); and for parameters of at most unit magnitude whose accumulated
gradient is at least 1e-9, the AdamW step moves both the bias component and
the weight entry, so W and b differ from their pre-step values. -/
theorem training_step_loss_and_update (z : ℕ → ℕ → ℝ) (S : ℕ → ℕ → ℝ)
    (bias : ℕ → ℝ) (W : ℕ → ℕ → ℝ) (h : ℕ)
    (hb : |bias 2| ≤ 1)
    (hgb : 1 / 1000000000 ≤ gradBias 2 3 z sentence_labels 2)
    (hw : |W 2 h| ≤ 1)
    (hgw : 1 / 1000000000 ≤ gradWeight 2 3 z sentence_labels S 2 h) :
    0 ≤ crossEntropyLoss 2 3 z sentence_labels ∧
    0 < gradBias 2 3 z sentence_labels 2 ∧
    headBiasAfterStep z bias 2 ≠ bias 2 ∧
    headWeightAfterStep z S W 2 h ≠ W 2 h := by
  refine ⟨crossEntropyLoss_nonneg 2 3 z sentence_labels (by decide),
    gradBias_two_pos z, ?_, ?_⟩
  · exact ne_of_lt (adamwFirstStep_lt (bias 2) _ hb hgb)
  · exact ne_of_lt (adamwFirstStep_lt (W 2 h) _ hw hgw)

/-- The all-zero logits matrix, standing in for a concrete forward output. -/
def zZero : ℕ → ℕ → ℝ := fun _ _ => 0

/-- The all-ones pooled embedding batch. -/
def sOne : ℕ → ℕ → ℝ := fun _ _ => 1

/-- The all-zero head bias. -/
def biasZero : ℕ → ℝ := fun _ => 0

/-- The all-zero head weight. -/
def wZero : ℕ → ℕ → ℝ := fun _ _ => 0

theorem training_step_loss_and_update_witness :
    (|biasZero 2| ≤ 1 ∧
      (1 : ℝ) / 1000000000 ≤ gradBias 2 3 zZero sentence_labels 2 ∧
      |wZero 2 0| ≤ 1 ∧
      (1 : ℝ) / 1000000000 ≤ gradWeight 2 3 zZero sentence_labels sOne 2 0) ∧
    (0 ≤ crossEntropyLoss 2 3 zZero sentence_labels ∧
      0 < gradBias 2 3 zZero sentence_labels 2 ∧
      headBiasAfterStep zZero biasZero 2 ≠ biasZero 2 ∧
      headWeightAfterStep zZero sOne wZero 2 0 ≠ wZero 2 0) := by
  have h1 : |biasZero 2| ≤ 1 := by norm_num [biasZero]
  have h2 : (1 : ℝ) / 1000000000 ≤ gradBias 2 3 zZero sentence_labels 2 := by
    unfold gradBias softmaxProb zZero sentence_labels
    rw [Finset.sum_range_succ, Finset.sum_range_succ, Finset.sum_range_zero]
    norm_num [Finset.sum_range_succ, Real.exp_zero]
  have h3 : |wZero 2 0| ≤ 1 := by norm_num [wZero]
  have h4 : (1 : ℝ) / 1000000000 ≤ gradWeight 2 3 zZero sentence_labels sOne 2 0 := by
    unfold gradWeight softmaxProb zZero sentence_labels sOne
    rw [Finset.sum_range_succ, Finset.sum_range_succ, Finset.sum_range_zero]
    norm_num [Finset.sum_range_succ, Real.exp_zero]
  exact ⟨⟨h1, h2, h3, h4⟩,
    training_step_loss_and_update zZero sOne biasZero wZero 0 h1 h2 h3 h4⟩

theorem classification_forward_linear_head_witness :
    ((toyClassifier.encoder.run (toyClassifier.tokenizer.run [])).dim0 = 2 ∧
      toyClassifier.classifier_weight.dim0 = 3) ∧
    (toyClassifier.forward [] =
      (toyClassifier.embeddingModel.forward []).map
        (linearForward toyClassifier.classifier_weight toyClassifier.classifier_bias) ∧
    ∃ L : Tensor2, toyClassifier.forward [] = .ok L ∧ L.dim0 = 2 ∧ L.dim1 = 3) :=
  ⟨⟨rfl, rfl⟩,
   classification_forward_linear_head toyClassifier [] rfl rfl rfl rfl⟩
